import Mathlib

/-!
Verification of the index-sampling logic of the torchsample samplers tutorial
(`tutorials/Samplers.ipynb`).

The notebook reproduces the code of `SequentialSampler` and `RandomSampler`
verbatim (markdown cell, lines 12-31 of the notebook source):

* `SequentialSampler.__iter__` returns `iter(range(self.num_samples))`,
* `RandomSampler.__iter__` returns `iter(torch.randperm(self.num_samples).long())`,
* both `__len__` methods return the stored `num_samples` unchanged.

`MultiSampler` and the auto-resetting `TensorDataset.next` wrapper are only
invoked by the notebook; their implementations live in the `torchsample`
package outside this repository snapshot, so they are modelled from the
specification's contracts (marked `Modelled from the spec:` below).

Randomness is modelled by an explicit random source: an infinite stream of
naturals, from which uniform draws in `[0, n)` are taken by reduction mod `n`.
-/

/-- A random source: an infinite stream of raw random naturals.  The `k`-th
draw of a consumer reads entry `k`. -/
def RNG : Type := Nat → Nat

/-- Embedding of Python's `range(n)` for an `int` argument `n`: the increasing
sequence `0, 1, ..., n-1`, empty whenever `n <= 0` (Python's `range` raises no
error on negative arguments). -/
def pyRange (n : Int) : List Int := (List.range n.toNat).map Int.ofNat

/-- `SequentialSampler` as shown in the notebook: stores `nb_samples` as
`num_samples`. -/
structure SequentialSampler where
  num_samples : Int

/-- `SequentialSampler.__iter__`: `iter(range(self.num_samples))`. -/
def SequentialSampler.iter (s : SequentialSampler) : List Int :=
  pyRange s.num_samples

/-- `SequentialSampler.__len__`: returns the stored `num_samples`. -/
def SequentialSampler.len (s : SequentialSampler) : Int :=
  s.num_samples

/-- Fisher-Yates selection shuffle driven by a random source: as long as fuel
remains, draw a position in the remaining pool uniformly (stream entry mod
pool size), emit the element there, and delete it from the pool.  `k` indexes
the next stream entry to consume. -/
def fisherYates (g : RNG) : Nat → Nat → List Nat → List Nat
  | 0, _, _ => []
  | fuel + 1, k, l =>
    if l.length = 0 then []
    else
      let v := l.getD (g k % l.length) 0
      v :: fisherYates g fuel (k + 1) (l.erase v)

/-- Model of `torch.randperm n`: a random permutation of `0, ..., n-1`
obtained by a Fisher-Yates shuffle over the random source `g`. -/
def randperm (n : Nat) (g : RNG) : List Nat :=
  fisherYates g n 0 (List.range n)

/-- `RandomSampler` as shown in the notebook. -/
structure RandomSampler where
  num_samples : Nat

/-- `RandomSampler.__iter__`: `iter(torch.randperm(self.num_samples).long())`,
with `torch.randperm` modelled by `randperm` over the ambient random source. -/
def RandomSampler.iter (s : RandomSampler) (g : RNG) : List Nat :=
  randperm s.num_samples g

/-- `RandomSampler.__len__`. -/
def RandomSampler.len (s : RandomSampler) : Nat :=
  s.num_samples

/-- `k` back-to-back sequential passes over `[0, nb)`:
`0,...,nb-1, 0,...,nb-1, ...` repeated `k` times. -/
def seqPasses (nb : Nat) : Nat → List Nat
  | 0 => []
  | k + 1 => List.range nb ++ seqPasses nb (k)

/-- `MultiSampler` configuration as used by the notebook:
`MultiSampler(nb_samples=N, desired_samples=M)`. -/
structure MultiSampler where
  nb_samples : Nat
  desired_samples : Nat

/-- Modelled from the spec: the `MultiSampler` index-sequence producer, whose
implementation (`torchsample/samplers.py`) is not part of this repository
snapshot.  Per spec section 4.3: given pool size `N = nb_samples` and desired
count `M = desired_samples`, emit `floor(M/N)` full sequential passes over
`[0,N)` back-to-back, then `M mod N` further indices drawn independently and
uniformly at random from `[0,N)` (for `M < N` this is just `M` random draws);
`N = 0` fails with an `InvalidArgument` condition. -/
def MultiSampler.sampleArray (m : MultiSampler) (g : RNG) : Except String (List Nat) :=
  if m.nb_samples = 0 then
    Except.error "InvalidArgument"
  else
    Except.ok (seqPasses m.nb_samples (m.desired_samples / m.nb_samples) ++
      (List.range (m.desired_samples % m.nb_samples)).map (fun i => g i % m.nb_samples))

/-- State of the auto-resetting iteration wrapper: the number of the current
pass and the position inside it (spec section 9 asks for exactly this explicit
state machine). -/
structure CycleState where
  pass : Nat
  pos : Nat
deriving DecidableEq, Repr

/-- Modelled from the spec: one request for "next index" against the
auto-resetting wrapper (`TensorDataset.next`, implemented outside this
repository snapshot).  `passes p` is the index sequence the wrapped producer
generates for its `p`-th pass (a randomized producer regenerates randomness
each pass, hence the dependence on `p`).  If the current pass still has an
item at the current position, return it and advance; upon exhaustion,
silently start a new pass and return its first item.  `none` is returned only
when that fresh pass is itself empty, in which case no index exists to hand
out. -/
def cyclicNext {α : Type} (passes : Nat → List α) (s : CycleState) :
    Option (α × CycleState) :=
  if h : s.pos < (passes s.pass).length then
    some ((passes s.pass).get ⟨s.pos, h⟩, ⟨s.pass, s.pos + 1⟩)
  else
    match passes (s.pass + 1) with
    | [] => none
    | x :: _ => some (x, ⟨s.pass + 1, 1⟩)

/-- Run `k` consecutive "next index" requests against the auto-resetting
wrapper from state `s`, collecting the returned indices; `none` if any
request fails to produce an index. -/
def cyclicRun {α : Type} (passes : Nat → List α) : CycleState → Nat → Option (List α)
  | _, 0 => some []
  | s, k + 1 =>
    match cyclicNext passes s with
    | none => none
    | some (x, t) =>
      match cyclicRun passes t k with
      | none => none
      | some xs => some (x :: xs)

/-! ### Helper lemmas -/

lemma pyRange_of_nonpos {n : Int} (h : n ≤ 0) : pyRange n = [] := by
  simp [pyRange, Int.toNat_of_nonpos h]

lemma seqPasses_length (nb k : Nat) : (seqPasses nb k).length = k * nb := by
  induction k with
  | zero => simp [seqPasses]
  | succ k ih => simp [seqPasses, ih, Nat.succ_mul]; omega

lemma mem_seqPasses {nb k x : Nat} (h : x ∈ seqPasses nb k) : x < nb := by
  induction k with
  | zero => simp [seqPasses] at h
  | succ k ih =>
    simp only [seqPasses, List.mem_append, List.mem_range] at h
    rcases h with h | h
    · exact h
    · exact ih h

lemma fisherYates_perm (g : RNG) :
    ∀ (fuel k : Nat) (l : List Nat), l.length ≤ fuel →
      (fisherYates g fuel k l).Perm l := by
  intro fuel
  induction fuel with
  | zero =>
    intro k l h
    have hl : l = [] := List.length_eq_zero.mp (Nat.le_zero.mp h)
    subst hl
    simp [fisherYates]
  | succ fuel ih =>
    intro k l h
    by_cases h0 : l.length = 0
    · have hl : l = [] := List.length_eq_zero.mp h0
      subst hl
      simp [fisherYates]
    · have hpos : 0 < l.length := Nat.pos_of_ne_zero h0
      have hlt : g k % l.length < l.length := Nat.mod_lt _ hpos
      have hv : l.getD (g k % l.length) 0 ∈ l := by
        rw [List.getD_eq_getElem l 0 hlt]
        exact List.getElem_mem hlt
      have hlen : (l.erase (l.getD (g k % l.length) 0)).length ≤ fuel := by
        have := List.length_erase_add_one hv
        omega
      rw [fisherYates, if_neg h0]
      exact ((ih (k + 1) _ hlen).cons _).trans (List.perm_cons_erase hv).symm

lemma randperm_perm (n : Nat) (g : RNG) : (randperm n g).Perm (List.range n) :=
  fisherYates_perm g n 0 (List.range n) (by simp)

/-! ### Claim theorems -/

/-- C2: for every pool size `N >= 0`, `SequentialSampler.__iter__` yields
exactly `N` indices, equal to `0, 1, ..., N-1` in that order. -/
theorem sequentialSampler_iter_spec (n : Nat) :
    (SequentialSampler.iter ⟨(n : Int)⟩).length = n ∧
    ∀ i, i < n → (SequentialSampler.iter ⟨(n : Int)⟩).getD i 0 = (i : Int) := by
  have he : SequentialSampler.iter ⟨(n : Int)⟩ = (List.range n).map Int.ofNat := by
    simp [SequentialSampler.iter, pyRange]
  constructor
  · simp [he]
  · intro i hi
    rw [he, List.getD_eq_getElem _ _ (by simpa using hi)]
    simp

/-- Witness for C2 at `N = 3`. -/
theorem sequentialSampler_iter_spec_witness :
    (SequentialSampler.iter ⟨(3 : Int)⟩).length = 3 ∧
    (SequentialSampler.iter ⟨(3 : Int)⟩).getD 1 0 = (1 : Int) :=
  ⟨(sequentialSampler_iter_spec 3).1, (sequentialSampler_iter_spec 3).2 1 (by decide)⟩

/-- C6 counterexample: at the concrete negative pool size `-1`, the sequential
producer does not fail; it returns a sequence, namely the empty one (Python's
`range(-1)` is empty and raises nothing). -/
theorem sequentialSampler_negative_counterexample :
    SequentialSampler.iter ⟨-1⟩ = [] := rfl

/-- C6 (amended): for every negative pool size `N`, the sequential producer
raises no error and yields the empty sequence. -/
theorem sequentialSampler_negative_returns_empty (n : Int) (h : n < 0) :
    SequentialSampler.iter ⟨n⟩ = [] :=
  pyRange_of_nonpos (le_of_lt h)

/-- Witness for the amended C6 at `N = -7`. -/
theorem sequentialSampler_negative_returns_empty_witness :
    SequentialSampler.iter ⟨-7⟩ = [] :=
  sequentialSampler_negative_returns_empty (-7) (by decide)

/-- C10: for every integer `nb_samples <= 0`, `SequentialSampler.__iter__`
yields the empty sequence and raises no error, while `__len__` still returns
the stored value unchanged. -/
theorem sequentialSampler_nonpos_spec (n : Int) (h : n ≤ 0) :
    SequentialSampler.iter ⟨n⟩ = [] ∧ SequentialSampler.len ⟨n⟩ = n :=
  ⟨pyRange_of_nonpos h, rfl⟩

/-- Witness for C10 at `nb_samples = -2`. -/
theorem sequentialSampler_nonpos_spec_witness :
    SequentialSampler.iter ⟨-2⟩ = [] ∧ SequentialSampler.len ⟨-2⟩ = -2 :=
  sequentialSampler_nonpos_spec (-2) (by decide)

/-- C3: for every pool size `N > 0`, `RandomSampler.__iter__` yields a
sequence of length `N` that is a permutation of `0..N-1`. -/
theorem randomSampler_iter_perm (n : Nat) (g : RNG) (h : 0 < n) :
    (RandomSampler.iter ⟨n⟩ g).length = n ∧
    (RandomSampler.iter ⟨n⟩ g).Perm (List.range n) := by
  have hp : (randperm n g).Perm (List.range n) := randperm_perm n g
  exact ⟨hp.length_eq.trans (List.length_range n), hp⟩

/-- Witness for C3 at `N = 3` with a concrete random source. -/
theorem randomSampler_iter_perm_witness :
    0 < 3 ∧ ((RandomSampler.iter ⟨3⟩ (fun k => 2 * k + 1)).length = 3 ∧
      (RandomSampler.iter ⟨3⟩ (fun k => 2 * k + 1)).Perm (List.range 3)) :=
  ⟨by decide, randomSampler_iter_perm 3 (fun k => 2 * k + 1) (by decide)⟩

/-- C9: every producer is deterministic given its inputs and, where
randomized, its random source: the sequential producer is a pure function of
`num_samples` (restartable, no side effects), and the randomized and
oversample producers yield identical sequences whenever the random sources
agree on every draw. -/
theorem producers_deterministic :
    (∀ s t : SequentialSampler, s.num_samples = t.num_samples → s.iter = t.iter) ∧
    (∀ (n : Nat) (g g' : RNG), (∀ k, g k = g' k) →
      RandomSampler.iter ⟨n⟩ g = RandomSampler.iter ⟨n⟩ g') ∧
    (∀ (m : MultiSampler) (g g' : RNG), (∀ k, g k = g' k) →
      m.sampleArray g = m.sampleArray g') := by
  refine ⟨?_, ?_, ?_⟩
  · rintro ⟨a⟩ ⟨b⟩ h
    cases h
    rfl
  · intro n g g' h
    rw [funext h]
  · intro m g g' h
    rw [funext h]

/-- Witness for C9 at concrete samplers and random sources. -/
theorem producers_deterministic_witness :
    SequentialSampler.iter ⟨4⟩ = SequentialSampler.iter ⟨4⟩ ∧
    RandomSampler.iter ⟨3⟩ (fun k => k) = RandomSampler.iter ⟨3⟩ (fun k => k) ∧
    MultiSampler.sampleArray ⟨3, 10⟩ (fun k => k) =
      MultiSampler.sampleArray ⟨3, 10⟩ (fun k => k) :=
  ⟨producers_deterministic.1 ⟨4⟩ ⟨4⟩ rfl,
   producers_deterministic.2.1 3 (fun k => k) (fun k => k) (fun _ => rfl),
   producers_deterministic.2.2 ⟨3, 10⟩ (fun k => k) (fun k => k) (fun _ => rfl)⟩

/-- C1: for `N > 0` and `M >= N`, the oversample producer yields exactly `M`
indices whose first `floor(M/N)*N` elements are `floor(M/N)` back-to-back
copies of `0,...,N-1` and whose remaining `M mod N` elements lie in `[0,N)`. -/
theorem multiSampler_oversample (nb desired : Nat) (g : RNG)
    (h1 : 0 < nb) (h2 : nb ≤ desired) :
    ∃ l, MultiSampler.sampleArray ⟨nb, desired⟩ g = Except.ok l ∧
      l.length = desired ∧
      l.take (desired / nb * nb) = seqPasses nb (desired / nb) ∧
      ∀ x ∈ l.drop (desired / nb * nb), x < nb := by
  have hne : nb ≠ 0 := by omega
  have hlen : (seqPasses nb (desired / nb)).length = desired / nb * nb :=
    seqPasses_length nb (desired / nb)
  refine ⟨seqPasses nb (desired / nb) ++
      (List.range (desired % nb)).map (fun i => g i % nb), ?_, ?_, ?_, ?_⟩
  · simp [MultiSampler.sampleArray, hne]
  · simp only [List.length_append, hlen, List.length_map, List.length_range]
    rw [Nat.mul_comm (desired / nb) nb]
    exact Nat.div_add_mod desired nb
  · rw [← hlen]
    simp
  · have hd : (seqPasses nb (desired / nb) ++
        (List.range (desired % nb)).map (fun i => g i % nb)).drop (desired / nb * nb) =
        (List.range (desired % nb)).map (fun i => g i % nb) := by
      rw [← hlen]
      simp
    rw [hd]
    intro x hx
    simp only [List.mem_map, List.mem_range] at hx
    obtain ⟨i, -, hxe⟩ := hx
    exact hxe ▸ Nat.mod_lt _ h1

/-- Witness for C1 at `N = 3`, `M = 10` (the notebook's concrete scenario). -/
theorem multiSampler_oversample_witness :
    ∃ l, MultiSampler.sampleArray ⟨3, 10⟩ (fun k => k) = Except.ok l ∧
      l.length = 10 ∧
      l.take (10 / 3 * 3) = seqPasses 3 (10 / 3) ∧
      ∀ x ∈ l.drop (10 / 3 * 3), x < 3 :=
  multiSampler_oversample 3 10 (fun k => k) (by decide) (by decide)

/-- C4: for `N > 0` and `0 <= M < N`, the undersample producer yields exactly
`M` indices, each lying in `[0, N)`. -/
theorem multiSampler_undersample (nb desired : Nat) (g : RNG)
    (h1 : 0 < nb) (h2 : desired < nb) :
    ∃ l, MultiSampler.sampleArray ⟨nb, desired⟩ g = Except.ok l ∧
      l.length = desired ∧ ∀ x ∈ l, x < nb := by
  have hne : nb ≠ 0 := by omega
  have hq : desired / nb = 0 := Nat.div_eq_of_lt h2
  have hr : desired % nb = desired := Nat.mod_eq_of_lt h2
  refine ⟨(List.range desired).map (fun i => g i % nb), ?_, ?_, ?_⟩
  · simp [MultiSampler.sampleArray, hne, hq, hr, seqPasses]
  · simp
  · intro x hx
    simp only [List.mem_map, List.mem_range] at hx
    obtain ⟨i, -, hxe⟩ := hx
    exact hxe ▸ Nat.mod_lt _ h1

/-- Witness for C4 at `N = 3`, `M = 2` (the notebook's concrete scenario). -/
theorem multiSampler_undersample_witness :
    ∃ l, MultiSampler.sampleArray ⟨3, 2⟩ (fun k => k + 1) = Except.ok l ∧
      l.length = 2 ∧ ∀ x ∈ l, x < 3 :=
  multiSampler_undersample 3 2 (fun k => k + 1) (by decide) (by decide)

/-- C7: for the over/undersample producer, a desired count `M = 0` yields the
empty sequence (for any valid pool `N > 0`), and a pool size `N = 0` fails
with an `InvalidArgument` condition. -/
theorem multiSampler_edge_cases (nb : Nat) (g : RNG) (h : 0 < nb) :
    MultiSampler.sampleArray ⟨nb, 0⟩ g = Except.ok [] ∧
    ∀ desired, MultiSampler.sampleArray ⟨0, desired⟩ g = Except.error "InvalidArgument" := by
  have hne : nb ≠ 0 := by omega
  constructor
  · simp [MultiSampler.sampleArray, hne, Nat.zero_div, Nat.zero_mod, seqPasses]
  · intro desired
    simp [MultiSampler.sampleArray]

/-- Witness for C7 at `N = 3` (for the `M = 0` part) and `M = 5` (for the
`N = 0` part). -/
theorem multiSampler_edge_cases_witness :
    MultiSampler.sampleArray ⟨3, 0⟩ (fun k => k) = Except.ok [] ∧
    MultiSampler.sampleArray ⟨0, 5⟩ (fun k => k) = Except.error "InvalidArgument" :=
  ⟨(multiSampler_edge_cases 3 (fun k => k) (by decide)).1,
   (multiSampler_edge_cases 3 (fun k => k) (by decide)).2 5⟩

/-- C5: the auto-resetting wrapper over the sequential producer with `N = 3`,
asked for the next index 11 times, yields exactly
`0,1,2,0,1,2,0,1,2,0,1` (the notebook's cell-12 output). -/
theorem tensorDataset_next_seq3 :
    cyclicRun (fun _ => SequentialSampler.iter ⟨3⟩) ⟨0, 0⟩ 11 =
      some [0, 1, 2, 0, 1, 2, 0, 1, 2, 0, 1] := by decide

lemma cyclicNext_isSome {α : Type} (passes : Nat → List α)
    (h : ∀ p, passes p ≠ []) (s : CycleState) :
    ∃ x t, cyclicNext passes s = some (x, t) := by
  unfold cyclicNext
  by_cases hp : s.pos < (passes s.pass).length
  · exact ⟨_, _, dif_pos hp⟩
  · rw [dif_neg hp]
    cases hc : passes (s.pass + 1) with
    | nil => exact absurd hc (h _)
    | cons x xs => exact ⟨x, _, rfl⟩

/-- C8: the auto-resetting wrapper never raises an end-of-sequence condition:
as long as every pass of the wrapped producer is nonempty, every number `k` of
consecutive "next index" requests succeeds and returns `k` indices.  Each of
the three producers with a positive pool yields nonempty passes, so all
instantiate the hypothesis. -/
theorem tensorDataset_next_total {α : Type} (passes : Nat → List α)
    (h : ∀ p, passes p ≠ []) :
    ∀ (k : Nat) (s : CycleState), ∃ l, cyclicRun passes s k = some l ∧ l.length = k := by
  intro k
  induction k with
  | zero => exact fun s => ⟨[], rfl, rfl⟩
  | succ k ih =>
    intro s
    obtain ⟨x, t, hxt⟩ := cyclicNext_isSome passes h s
    obtain ⟨l, hl, hlen⟩ := ih t
    refine ⟨x :: l, ?_, by simp [hlen]⟩
    simp [cyclicRun, hxt, hl]

/-- Witness for C8: the wrapper over a one-element pass answers 5 requests. -/
theorem tensorDataset_next_total_witness :
    ∃ l, cyclicRun (fun _ => [0]) ⟨0, 0⟩ 5 = some l ∧ l.length = 5 :=
  tensorDataset_next_total (fun _ => [0]) (fun _ => List.cons_ne_nil 0 []) 5 ⟨0, 0⟩
